import Mathlib

/-!
Verification of the airdrop filter scripts
(scripts/s4nftboost/base/filter_holders.py and
scripts/s4nftboost/edu/filter_holders.py).

The scripts are a single-pass join over two comma-delimited tables: a
reference set of holder addresses and a leaderboard of address/value rows.
We embed the per-row processing faithfully: rows are association lists from
column names to cell values (mirroring the dict rows produced by a
header-keyed reader), numeric cells are parsed into exact rationals, errors
are surfaced in an Except monad, and the loop aborts on the first error
exactly as an uncaught exception aborts the script.
-/

namespace AirdropFilter

/-- A data row as produced by a header-keyed CSV reader: an association list
from column name to cell value.  Key lookup finds the first matching pair. -/
abbrev Row := List (String × String)

/-- An output record of the script: the matched address in its original case
and the computed airdrop amount. -/
structure MatchedRecord where
  address : String
  airdrop_amount : ℚ
deriving DecidableEq, Repr

deriving instance DecidableEq for Except

/-- Value of a list of decimal digit characters, most significant first. -/
def digitsToNat (cs : List Char) : ℕ :=
  cs.foldl (fun a c => 10 * a + (c.toNat - 48)) 0

/-- All characters in the list are decimal digits. -/
def isDigits (cs : List Char) : Bool :=
  cs.all (fun c => c.isDigit)

/-- The syntactic content of a decimal numeral: sign, integer part, digits of
the fractional part with their count, and the exponent. -/
structure Numeral where
  neg : Bool
  intPart : ℕ
  fracPart : ℕ
  fracLen : ℕ
  exp : ℤ
deriving DecidableEq, Repr

/-- Parse a cell as a decimal numeral: an optional sign, a decimal mantissa
(digits with an optional fractional part) and an optional exponent part.
Returns none when the string is not a decimal numeral, in which case the
float constructor in the script raises ValueError. -/
def parseNumeral? (s : String) : Option Numeral :=
  let signBody : Bool × List Char :=
    match s.data with
    | '-' :: t => (true, t)
    | '+' :: t => (false, t)
    | cs => (false, cs)
  let mantExp := signBody.2.span (fun c => c != 'e' && c != 'E')
  let expVal : Option ℤ :=
    match mantExp.2 with
    | [] => some 0
    | _ :: t =>
      let esignDigits : ℤ × List Char :=
        match t with
        | '-' :: u => (-1, u)
        | '+' :: u => (1, u)
        | _ => (1, t)
      if esignDigits.2 ≠ [] ∧ isDigits esignDigits.2 then
        some (esignDigits.1 * digitsToNat esignDigits.2)
      else none
  let intFrac := mantExp.1.span (fun c => c != '.')
  let mantVal : Option (ℕ × ℕ × ℕ) :=
    match intFrac.2 with
    | [] =>
      if intFrac.1 ≠ [] ∧ isDigits intFrac.1 then
        some (digitsToNat intFrac.1, 0, 0)
      else none
    | _ :: f =>
      if (intFrac.1 ≠ [] ∨ f ≠ []) ∧ isDigits intFrac.1 ∧ isDigits f then
        some (digitsToNat intFrac.1, digitsToNat f, f.length)
      else none
  match mantVal, expVal with
  | some m, some e => some ⟨signBody.1, m.1, m.2.1, m.2.2, e⟩
  | _, _ => none

/-- The exact rational value of a decimal numeral. -/
def Numeral.val (n : Numeral) : ℚ :=
  (if n.neg then -1 else 1) * ((n.intPart : ℚ) + (n.fracPart : ℚ) / (10 : ℚ) ^ n.fracLen)
    * (10 : ℚ) ^ n.exp

/-- Model of the float constructor applied to a cell: the exact rational
value of the decimal numeral, or none (ValueError) when the cell is not a
decimal numeral. -/
def pyFloat? (s : String) : Option ℚ :=
  (parseNumeral? s).map Numeral.val

/-- Model of the lower() method on strings: lower-case every character. -/
def pyLower (s : String) : String :=
  String.mk (s.data.map Char.toLower)

/-- Round a rational to the nearest integer, ties going to the even
neighbour, as the float rounding primitive does. -/
def rndHalfEven (q : ℚ) : ℤ :=
  if q - ⌊q⌋ < 1 / 2 then ⌊q⌋
  else if 1 / 2 < q - ⌊q⌋ then ⌊q⌋ + 1
  else if ⌊q⌋ % 2 = 0 then ⌊q⌋ else ⌊q⌋ + 1

/-- Model of rounding to 3 decimal places. -/
def pyRound3 (q : ℚ) : ℚ :=
  (rndHalfEven (q * 1000) : ℚ) / 1000

/-- Set insertion for the reference set: adding an element already present
leaves the set unchanged. -/
def setAdd (s : List String) (x : String) : List String :=
  if x ∈ s then s else s ++ [x]

/-- Loop body of the reference-set reader: when the HolderAddress key is
present in the row, its lower-cased value is added to the set. -/
def refStep (s : List String) (r : Row) : List String :=
  match r.lookup "HolderAddress" with
  | some v => setAdd s (pyLower v)
  | none => s

/-- The reference-set reader of both scripts: folds refStep over the data
rows starting from the empty set. -/
def loadReferenceSet (rows : List Row) : List String :=
  rows.foldl refStep []

/-- One iteration of the base leaderboard loop: look up the Address cell
(KeyError when the column is absent), test lower-cased membership in the
reference set, and for matches parse the Quantity cell and build the output
record with the original-case address and 10 percent of the quantity rounded
to 3 decimals. -/
def processRowBase (refs : List String) (r : Row) : Except String (Option MatchedRecord) :=
  match r.lookup "Address" with
  | none => .error "KeyError: Address"
  | some a =>
    if pyLower a ∈ refs then
      match r.lookup "Quantity" with
      | none => .error "KeyError: Quantity"
      | some v =>
        match pyFloat? v with
        | none => .error "ValueError: could not convert string to float"
        | some q =>
          .ok (some { address := a, airdrop_amount := pyRound3 (q * (1 / 10)) })
    else .ok none

/-- The base leaderboard loop: process the rows in order, collecting matches
and aborting on the first error, as an uncaught exception aborts the script
before anything is written. -/
def computeMatchesBase (refs : List String) : List Row → Except String (List MatchedRecord)
  | [] => .ok []
  | r :: rs =>
    match processRowBase refs r with
    | .error e => .error e
    | .ok none => computeMatchesBase refs rs
    | .ok (some m) =>
      match computeMatchesBase refs rs with
      | .error e => .error e
      | .ok ms => .ok (m :: ms)

/-- One iteration of the edu leaderboard loop: identical to the base variant
except that the address column is named HolderAddress and the value column is
named Balance. -/
def processRowEdu (refs : List String) (r : Row) : Except String (Option MatchedRecord) :=
  match r.lookup "HolderAddress" with
  | none => .error "KeyError: HolderAddress"
  | some a =>
    if pyLower a ∈ refs then
      match r.lookup "Balance" with
      | none => .error "KeyError: Balance"
      | some v =>
        match pyFloat? v with
        | none => .error "ValueError: could not convert string to float"
        | some q =>
          .ok (some { address := a, airdrop_amount := pyRound3 (q * (1 / 10)) })
    else .ok none

/-- The edu leaderboard loop. -/
def computeMatchesEdu (refs : List String) : List Row → Except String (List MatchedRecord)
  | [] => .ok []
  | r :: rs =>
    match processRowEdu refs r with
    | .error e => .error e
    | .ok none => computeMatchesEdu refs rs
    | .ok (some m) =>
      match computeMatchesEdu refs rs with
      | .error e => .error e
      | .ok ms => .ok (m :: ms)

/-- A comma-delimited input file: the header row and the data records. -/
structure CsvFile where
  header : List String
  records : List (List String)

/-- The dict rows a header-keyed reader produces: each data record is zipped
with the header. -/
def dictRows (f : CsvFile) : List Row :=
  f.records.map (fun cells => f.header.zip cells)

/-- The reference file is opened without byte-order-mark handling, so its
reference set is computed on the rows exactly as decoded. -/
def loadReferenceSetFile (f : CsvFile) : List String :=
  loadReferenceSet (dictRows f)

/-- A file whose bytes begin with a UTF-8 byte-order mark: decoded without
BOM handling, the mark appears as U+FEFF glued to the first header cell. -/
def addBOM (f : CsvFile) : CsvFile :=
  { f with header :=
      match f.header with
      | [] => [String.mk ['\uFEFF']]
      | c :: t => String.mk ('\uFEFF' :: c.data) :: t }

/-- Model of opening with encoding utf-8-sig, as the leaderboard file is: a
leading U+FEFF on the first header cell is stripped. -/
def stripBOM (f : CsvFile) : CsvFile :=
  { f with header :=
      match f.header with
      | [] => []
      | c :: t =>
        (match c.data with
         | '\uFEFF' :: u => String.mk u
         | _ => c) :: t }

/-- Read the base leaderboard file (utf-8-sig) and run the matching loop. -/
def computeMatchesFileBase (refs : List String) (f : CsvFile) :
    Except String (List MatchedRecord) :=
  computeMatchesBase refs (dictRows (stripBOM f))

/-- The output writer: the header row Address,Airdrop_Amount followed by one
row per matched record, in order. -/
def writeOutput (ms : List MatchedRecord) : List (List String) :=
  ["Address", "Airdrop_Amount"] :: ms.map (fun m => [m.address, toString m.airdrop_amount])

/-- The whole base script run: load the reference file (no BOM handling),
run the leaderboard loop (utf-8-sig), and on success produce the written
output file; on error nothing is written. -/
def mainBase (rf lf : CsvFile) : Except String (List (List String)) :=
  match computeMatchesFileBase (loadReferenceSetFile rf) lf with
  | .error e => .error e
  | .ok ms => .ok (writeOutput ms)

/-- A leaderboard row that matches: its Address cell exists and its
lower-cased value is in the reference set. -/
def matchedRow (refs : List String) (r : Row) : Bool :=
  match r.lookup "Address" with
  | some a => decide (pyLower a ∈ refs)
  | none => false

/-- A row whose value cell cannot be processed: the Quantity column is
absent or its content is not a decimal numeral. -/
def badValue (r : Row) : Bool :=
  match r.lookup "Quantity" with
  | some v => (pyFloat? v).isNone
  | none => true

/-- Rounding a rational that is already an integer returns that integer. -/
theorem rndHalfEven_intCast (n : ℤ) : rndHalfEven (n : ℚ) = n := by
  unfold rndHalfEven
  rw [Int.floor_intCast]
  norm_num

/-- When q * 1000 is an integer, rounding q to 3 decimals is exact. -/
theorem pyRound3_eq_of_mul_eq (q : ℚ) (n : ℤ) (h : q * 1000 = (n : ℚ)) :
    pyRound3 q = (n : ℚ) / 1000 := by
  unfold pyRound3
  rw [h, rndHalfEven_intCast]

/-- Column renaming from the base leaderboard schema to the edu schema:
Address becomes HolderAddress and Quantity becomes Balance. -/
def renameBE (k : String) : String :=
  if k = "Address" then "HolderAddress" else if k = "Quantity" then "Balance" else k

/-- Rename the columns of one row from the base schema to the edu schema. -/
def renameRow (r : Row) : Row :=
  r.map (fun kv => (renameBE kv.1, kv.2))

theorem mem_setAdd (s : List String) (x y : String) :
    x ∈ setAdd s y ↔ x ∈ s ∨ x = y := by
  by_cases hy : y ∈ s
  · simp only [setAdd, if_pos hy]
    constructor
    · exact Or.inl
    · rintro (hx | rfl)
      · exact hx
      · exact hy
  · simp [setAdd, if_neg hy]

theorem mem_foldl_refStep (rows : List Row) :
    ∀ (acc : List String) (x : String),
      x ∈ List.foldl refStep acc rows ↔
        x ∈ acc ∨ ∃ r ∈ rows, ∃ v, r.lookup "HolderAddress" = some v ∧ x = pyLower v := by
  induction rows with
  | nil => intro acc x; simp
  | cons r rs ih =>
    intro acc x
    rw [List.foldl_cons, ih]
    cases hA : r.lookup "HolderAddress" with
    | none => simp [refStep, hA]
    | some v =>
      simp only [refStep, hA, mem_setAdd, List.mem_cons]
      constructor
      · rintro ((hx | rfl) | ⟨r', hr', hv⟩)
        · exact Or.inl hx
        · exact Or.inr ⟨r, Or.inl rfl, v, hA, rfl⟩
        · exact Or.inr ⟨r', Or.inr hr', hv⟩
      · rintro (hx | ⟨r', hr' | hr', w, hw, rfl⟩)
        · exact Or.inl (Or.inl hx)
        · subst hr'
          rw [hA] at hw
          cases hw
          exact Or.inl (Or.inr rfl)
        · exact Or.inr ⟨r', hr', w, hw, rfl⟩

theorem foldl_refStep_of_no_key (rows : List Row) :
    ∀ acc : List String, (∀ r ∈ rows, r.lookup "HolderAddress" = none) →
      List.foldl refStep acc rows = acc := by
  induction rows with
  | nil => intro acc _; rfl
  | cons r rs ih =>
    intro acc h
    rw [List.foldl_cons]
    have hr : refStep acc r = acc := by
      unfold refStep
      rw [h r (List.mem_cons_self r rs)]
    rw [hr]
    exact ih acc (fun r' hr' => h r' (List.mem_cons_of_mem r hr'))

theorem lookup_zip_of_not_mem (hd : List String) :
    ∀ (cells : List String) (k : String), k ∉ hd →
      List.lookup k (hd.zip cells) = none := by
  induction hd with
  | nil => intro cells k _; simp
  | cons c t ih =>
    intro cells k h
    cases cells with
    | nil => simp
    | cons v vs =>
      have hkc : (k == c) = false :=
        beq_eq_false_iff_ne.mpr (fun e => h (e ▸ List.mem_cons_self c t))
      have hkt : k ∉ t := fun m => h (List.mem_cons_of_mem c m)
      simp only [List.zip_cons_cons, List.lookup, hkc]
      exact ih vs k hkt

theorem computeMatchesBase_ok_spec (refs : List String) (rows : List Row) :
    ∀ ms : List MatchedRecord, computeMatchesBase refs rows = .ok ms →
      ms.map (fun m => m.address)
        = (rows.filter (fun r => matchedRow refs r)).filterMap (fun r => r.lookup "Address")
      ∧ ms.length = (rows.filter (fun r => matchedRow refs r)).length := by
  induction rows with
  | nil =>
    intro ms h
    simp only [computeMatchesBase, Except.ok.injEq] at h
    subst h
    simp
  | cons r rs ih =>
    intro ms h
    simp only [computeMatchesBase] at h
    cases hA : r.lookup "Address" with
    | none => simp [processRowBase, hA] at h
    | some a =>
      by_cases hm : pyLower a ∈ refs
      · cases hQ : r.lookup "Quantity" with
        | none => simp [processRowBase, hA, if_pos hm, hQ] at h
        | some v =>
          cases hF : pyFloat? v with
          | none => simp [processRowBase, hA, if_pos hm, hQ, hF] at h
          | some q =>
            simp only [processRowBase, hA, if_pos hm, hQ, hF] at h
            cases hrec : computeMatchesBase refs rs with
            | error e => rw [hrec] at h; cases h
            | ok msr =>
              rw [hrec] at h
              simp only [Except.ok.injEq] at h
              subst h
              obtain ⟨ih1, ih2⟩ := ih msr hrec
              have hmr : matchedRow refs r = true := by
                simp [matchedRow, hA, hm]
              simp only [List.filter_cons, hmr, if_true, List.filterMap_cons, hA,
                List.map_cons, List.length_cons]
              exact ⟨by rw [ih1], by rw [ih2]⟩
      · simp only [processRowBase, hA, if_neg hm] at h
        have hmr : matchedRow refs r = false := by
          simp [matchedRow, hA, hm]
        simp [List.filter_cons, hmr]
        exact ih ms h

theorem computeMatchesBase_error_of_bad (refs : List String) (rows : List Row) :
    (∃ r ∈ rows, matchedRow refs r = true ∧ badValue r = true) →
    ∃ e, computeMatchesBase refs rows = .error e := by
  induction rows with
  | nil => rintro ⟨r, hr, -⟩; cases hr
  | cons r rs ih =>
    rintro ⟨r', hr', hmatch, hbad⟩
    rcases List.mem_cons.mp hr' with rfl | hmem
    · cases hA : r'.lookup "Address" with
      | none => simp [matchedRow, hA] at hmatch
      | some a =>
        have hm : pyLower a ∈ refs := by
          simp only [matchedRow, hA, decide_eq_true_eq] at hmatch
          exact hmatch
        cases hQ : r'.lookup "Quantity" with
        | none =>
          exact ⟨"KeyError: Quantity",
            by simp [computeMatchesBase, processRowBase, hA, if_pos hm, hQ]⟩
        | some v =>
          have hF : pyFloat? v = none := by
            simp only [badValue, hQ, Option.isNone_iff_eq_none] at hbad
            exact hbad
          exact ⟨"ValueError: could not convert string to float",
            by simp [computeMatchesBase, processRowBase, hA, if_pos hm, hQ, hF]⟩
    · obtain ⟨e, he⟩ := ih ⟨r', hmem, hmatch, hbad⟩
      cases hp : processRowBase refs r with
      | error e' => exact ⟨e', by simp [computeMatchesBase, hp]⟩
      | ok o =>
        cases o with
        | none => exact ⟨e, by simp only [computeMatchesBase, hp]; exact he⟩
        | some m => exact ⟨e, by simp only [computeMatchesBase, hp, he]⟩

theorem lookup_renameRow (r : Row) :
    (∀ kv ∈ r, kv.1 ≠ "HolderAddress" ∧ kv.1 ≠ "Balance") →
    (renameRow r).lookup "HolderAddress" = r.lookup "Address"
  ∧ (renameRow r).lookup "Balance" = r.lookup "Quantity" := by
  induction r with
  | nil => intro _; exact ⟨rfl, rfl⟩
  | cons kv t ih =>
    intro h
    obtain ⟨k, v⟩ := kv
    have hh := h (k, v) (List.mem_cons_self _ t)
    obtain ⟨iht1, iht2⟩ := ih (fun kv' m => h kv' (List.mem_cons_of_mem _ m))
    simp only [renameRow, List.map_cons] at iht1 iht2 ⊢
    by_cases h1 : k = "Address"
    · subst h1
      rw [show renameBE "Address" = "HolderAddress" from by simp [renameBE]]
      constructor
      · simp [List.lookup]
      · simp only [List.lookup,
          show ("Balance" == "HolderAddress") = false from by decide,
          show ("Quantity" == "Address") = false from by decide]
        exact iht2
    · by_cases h2 : k = "Quantity"
      · subst h2
        rw [show renameBE "Quantity" = "Balance" from by simp [renameBE, h1]]
        constructor
        · simp only [List.lookup,
            show ("HolderAddress" == "Balance") = false from by decide,
            show ("Address" == "Quantity") = false from by decide]
          exact iht1
        · simp [List.lookup]
      · have e0 : renameBE k = k := by simp [renameBE, h1, h2]
        rw [e0]
        have e1 : ("HolderAddress" == k) = false := beq_eq_false_iff_ne.mpr (Ne.symm hh.1)
        have e2 : ("Balance" == k) = false := beq_eq_false_iff_ne.mpr (Ne.symm hh.2)
        have e3 : ("Address" == k) = false := beq_eq_false_iff_ne.mpr (fun e => h1 e.symm)
        have e4 : ("Quantity" == k) = false := beq_eq_false_iff_ne.mpr (fun e => h2 e.symm)
        constructor
        · simp only [List.lookup, e1, e3]
          exact iht1
        · simp only [List.lookup, e2, e4]
          exact iht2

theorem processRow_rename_ok (refs : List String) (r : Row)
    (h : ∀ kv ∈ r, kv.1 ≠ "HolderAddress" ∧ kv.1 ≠ "Balance") :
    ∀ o, processRowEdu refs (renameRow r) = .ok o ↔ processRowBase refs r = .ok o := by
  obtain ⟨h1, h2⟩ := lookup_renameRow r h
  intro o
  unfold processRowEdu processRowBase
  rw [h1, h2]
  cases hA : r.lookup "Address" with
  | none => simp
  | some a =>
    by_cases hm : pyLower a ∈ refs
    · cases hQ : r.lookup "Quantity" with
      | none => simp [if_pos hm]
      | some v =>
        cases hF : pyFloat? v with
        | none => simp [if_pos hm, hF]
        | some q => simp [if_pos hm, hF]
    · simp [if_neg hm]

theorem computeMatches_rename_ok (refs : List String) (rows : List Row) :
    (∀ r ∈ rows, ∀ kv ∈ r, kv.1 ≠ "HolderAddress" ∧ kv.1 ≠ "Balance") →
    ∀ ms, computeMatchesEdu refs (rows.map renameRow) = .ok ms
        ↔ computeMatchesBase refs rows = .ok ms := by
  induction rows with
  | nil => intro _ ms; simp [computeMatchesBase, computeMatchesEdu]
  | cons r rs ih =>
    intro h ms
    have hhead := processRow_rename_ok refs r (h r (List.mem_cons_self r rs))
    have htail := ih (fun r' m => h r' (List.mem_cons_of_mem r m))
    rw [List.map_cons]
    cases hp : processRowBase refs r with
    | error e =>
      have hpe : ∀ o, processRowEdu refs (renameRow r) ≠ .ok o := by
        intro o ho
        rw [hp] at hhead
        exact absurd ((hhead o).mp ho) (by simp)
      cases hpE : processRowEdu refs (renameRow r) with
      | error e' => simp [computeMatchesBase, computeMatchesEdu, hp, hpE]
      | ok o => exact absurd hpE (hpe o)
    | ok o =>
      have hpE : processRowEdu refs (renameRow r) = .ok o := (hhead o).mpr hp
      cases o with
      | none =>
        simp only [computeMatchesBase, computeMatchesEdu, hp, hpE]
        exact htail ms
      | some m =>
        simp only [computeMatchesBase, computeMatchesEdu, hp, hpE]
        cases hbrec : computeMatchesBase refs rs with
        | error e =>
          have herec : ∀ ms', computeMatchesEdu refs (rs.map renameRow) ≠ .ok ms' := by
            intro ms' hms'
            rw [hbrec] at htail
            exact absurd ((htail ms').mp hms') (by simp)
          cases herecE : computeMatchesEdu refs (rs.map renameRow) with
          | error e' => simp
          | ok ms' => exact absurd herecE (herec ms')
        | ok msr =>
          rw [(htail msr).mpr hbrec]

example : parseNumeral? "100" = some ⟨false, 100, 0, 0, 0⟩ := by decide
example : parseNumeral? "-5" = some ⟨true, 5, 0, 0, 0⟩ := by decide
example : parseNumeral? "12.3455" = some ⟨false, 12, 3455, 4, 0⟩ := by decide
example : parseNumeral? "1e3" = some ⟨false, 1, 0, 0, 3⟩ := by decide
example : pyFloat? "N/A" = none := by decide
example : pyFloat? "" = none := by decide
example : pyFloat? "100" = some 100 := by
  have h : parseNumeral? "100" = some ⟨false, 100, 0, 0, 0⟩ := by decide
  unfold pyFloat?
  rw [h]
  norm_num [Numeral.val, Option.map]
example : pyFloat? "-5" = some (-5) := by
  have h : parseNumeral? "-5" = some ⟨true, 5, 0, 0, 0⟩ := by decide
  unfold pyFloat?
  rw [h]
  norm_num [Numeral.val, Option.map]
example : pyRound3 (100 * (1 / 10)) = 10 := by
  rw [pyRound3_eq_of_mul_eq _ 10000 (by norm_num)]
  norm_num
example : pyRound3 ((-5) * (1 / 10)) = -(1 / 2) := by
  rw [pyRound3_eq_of_mul_eq _ (-500) (by norm_num)]
  norm_num
example : loadReferenceSet [[("HolderAddress", "0xA")]] = ["0xa"] := by decide
example :
    computeMatchesBase ["0xa"] [[("Address", "0xB"), ("Quantity", "N/A")]]
      = .ok [] := by decide

/-- C1: whenever the leaderboard loop produces an output, that output contains
exactly one record per leaderboard row whose lower-cased address is a member
of the reference set (duplicates preserved, never merged) and no record for
any other row, in leaderboard input order: the output addresses are precisely
the Address cells of the matched rows in order, and the output length equals
the number of matched rows. -/
theorem claim1_matches_exactly (refs : List String) (rows : List Row)
    (ms : List MatchedRecord) (h : computeMatchesBase refs rows = .ok ms) :
    ms.map (fun m => m.address)
      = (rows.filter (fun r => matchedRow refs r)).filterMap (fun r => r.lookup "Address")
    ∧ ms.length = (rows.filter (fun r => matchedRow refs r)).length :=
  computeMatchesBase_ok_spec refs rows ms h

/-- Witness for C1 at a concrete run with a duplicated matched row. -/
theorem claim1_matches_exactly_witness :
    ([{ address := "0xA", airdrop_amount := pyRound3 (Numeral.val ⟨false, 2, 0, 0, 0⟩ * (1 / 10)) },
      { address := "0xA", airdrop_amount := pyRound3 (Numeral.val ⟨false, 2, 0, 0, 0⟩ * (1 / 10)) }]
        : List MatchedRecord).map (fun m => m.address)
      = (([[("Address", "0xA"), ("Quantity", "2")], [("Address", "0xB"), ("Quantity", "3")],
          [("Address", "0xA"), ("Quantity", "2")]] : List Row).filter
            (fun r => matchedRow ["0xa"] r)).filterMap (fun r => r.lookup "Address")
    ∧ ([{ address := "0xA", airdrop_amount := pyRound3 (Numeral.val ⟨false, 2, 0, 0, 0⟩ * (1 / 10)) },
        { address := "0xA", airdrop_amount := pyRound3 (Numeral.val ⟨false, 2, 0, 0, 0⟩ * (1 / 10)) }]
          : List MatchedRecord).length
      = (([[("Address", "0xA"), ("Quantity", "2")], [("Address", "0xB"), ("Quantity", "3")],
          [("Address", "0xA"), ("Quantity", "2")]] : List Row).filter
            (fun r => matchedRow ["0xa"] r)).length :=
  claim1_matches_exactly ["0xa"]
    [[("Address", "0xA"), ("Quantity", "2")], [("Address", "0xB"), ("Quantity", "3")],
     [("Address", "0xA"), ("Quantity", "2")]] _ rfl

/-- C3: address matching is case-insensitive and the output carries the
leaderboard casing: for any reference address and leaderboard address with
the same lower-casing, a single-row reference file and single-row leaderboard
produce exactly one match carrying the leaderboard spelling. -/
theorem claim3_case_insensitive (ra la v : String) (q : ℚ)
    (hcase : pyLower la = pyLower ra) (hv : pyFloat? v = some q) :
    computeMatchesBase (loadReferenceSet [[("HolderAddress", ra)]])
        [[("Address", la), ("Quantity", v)]]
      = .ok [{ address := la, airdrop_amount := pyRound3 (q * (1 / 10)) }] := by
  have h1 : loadReferenceSet [[("HolderAddress", ra)]] = [pyLower ra] := rfl
  rw [h1]
  have hmem : pyLower la ∈ [pyLower ra] := List.mem_singleton.mpr hcase
  simp only [computeMatchesBase, processRowBase,
    show List.lookup "Address" [("Address", la), ("Quantity", v)] = some la from rfl,
    show List.lookup "Quantity" [("Address", la), ("Quantity", v)] = some v from rfl,
    if_pos hmem, hv]

/-- Witness for C3: reference 0xABC matches leaderboard 0xabc and the output
row keeps the lower-case leaderboard spelling. -/
theorem claim3_case_insensitive_witness :
    computeMatchesBase (loadReferenceSet [[("HolderAddress", "0xABC")]])
        [[("Address", "0xabc"), ("Quantity", "100")]]
      = .ok [{ address := "0xabc",
               airdrop_amount := pyRound3 (Numeral.val ⟨false, 100, 0, 0, 0⟩ * (1 / 10)) }] :=
  claim3_case_insensitive "0xABC" "0xabc" "100" (Numeral.val ⟨false, 100, 0, 0, 0⟩)
    (by decide) rfl

/-- C4 counterexample: a leaderboard containing a row with the non-numeric
value N/A whose address is not in the reference set does NOT make the run
fail: the row is never parsed, the run succeeds and output is produced. -/
theorem claim4_cx :
    pyFloat? "N/A" = none
  ∧ mainBase ⟨["HolderAddress"], []⟩ ⟨["Address", "Quantity"], [["0xB", "N/A"]]⟩
      = .ok [["Address", "Airdrop_Amount"]] := by
  constructor
  · decide
  · decide

/-- C4 (amended): when some leaderboard row is matched (its lower-cased
address is in the reference set) and its value cell is absent or not a
decimal numeral, the run fails and no output is produced. -/
theorem claim4_amended (rf lf : CsvFile)
    (h : ∃ r ∈ dictRows (stripBOM lf),
          matchedRow (loadReferenceSetFile rf) r = true ∧ badValue r = true) :
    ∃ e, mainBase rf lf = .error e := by
  obtain ⟨e, he⟩ :=
    computeMatchesBase_error_of_bad (loadReferenceSetFile rf) (dictRows (stripBOM lf)) h
  exact ⟨e, by simp only [mainBase, computeMatchesFileBase, he]⟩

/-- Witness for C4 (amended): a matched row with value N/A aborts the run. -/
theorem claim4_amended_witness :
    ∃ e, mainBase ⟨["HolderAddress"], [["0xA"]]⟩ ⟨["Address", "Quantity"], [["0xA", "N/A"]]⟩
      = .error e :=
  claim4_amended ⟨["HolderAddress"], [["0xA"]]⟩ ⟨["Address", "Quantity"], [["0xA", "N/A"]]⟩
    (by decide)

/-- C5 counterexample: a leaderboard file whose header lacks the Address
column DOES abort the run (KeyError), contrary to the claim that a missing
header column is non-fatal for every input file. -/
theorem claim5_cx :
    mainBase ⟨["HolderAddress"], [["0xA"]]⟩ ⟨["Foo"], [["bar"]]⟩
      = .error "KeyError: Address" := by decide

/-- C5 (amended): a missing column is non-fatal only for the reference file:
rows without the HolderAddress key contribute nothing, and an empty reference
set yields zero output rows; but a leaderboard data row without the Address
key aborts the run with a KeyError. -/
theorem claim5_amended :
    (∀ rows : List Row, (∀ r ∈ rows, r.lookup "HolderAddress" = none) →
        loadReferenceSet rows = [])
  ∧ (∀ (rows : List Row) (ms : List MatchedRecord),
        computeMatchesBase [] rows = .ok ms → ms = [])
  ∧ (∀ (refs : List String) (r : Row) (rows : List Row), r.lookup "Address" = none →
        computeMatchesBase refs (r :: rows) = .error "KeyError: Address") := by
  refine ⟨?_, ?_, ?_⟩
  · intro rows h
    exact foldl_refStep_of_no_key rows [] h
  · intro rows ms h
    have hlen := (computeMatchesBase_ok_spec [] rows ms h).2
    have hf : rows.filter (fun r => matchedRow [] r) = [] := by
      apply List.filter_eq_nil_iff.mpr
      intro r _
      cases hA : r.lookup "Address" <;> simp [matchedRow, hA]
    rw [hf] at hlen
    exact List.length_eq_zero.mp hlen
  · intro refs r rows hA
    simp [computeMatchesBase, processRowBase, hA]

/-- Witness for C5 (amended), exercising all three parts. -/
theorem claim5_amended_witness :
    loadReferenceSet [[("Foo", "bar")]] = []
  ∧ ([] : List MatchedRecord) = []
  ∧ computeMatchesBase ["0xa"] ([("Foo", "bar")] :: []) = .error "KeyError: Address" :=
  ⟨claim5_amended.1 [[("Foo", "bar")]] (by decide),
   claim5_amended.2.1 [[("Address", "0xA")]] [] (by decide),
   claim5_amended.2.2 ["0xa"] [("Foo", "bar")] [] (by decide)⟩

/-- C6 counterexample: a row whose HolderAddress cell is present but empty
does NOT contribute nothing: the empty string is inserted into the set. -/
theorem claim6_cx :
    loadReferenceSet [[("HolderAddress", "")]] = [""]
  ∧ loadReferenceSet [[("HolderAddress", "")]] ≠ [] := by decide

/-- C6 (amended): the reference set contains exactly the lower-casings of the
HolderAddress cells of rows where that key is present, regardless of whether
the cell is empty; rows missing the key contribute nothing. -/
theorem claim6_amended (rows : List Row) (x : String) :
    x ∈ loadReferenceSet rows
      ↔ ∃ r ∈ rows, ∃ v, r.lookup "HolderAddress" = some v ∧ x = pyLower v := by
  unfold loadReferenceSet
  rw [mem_foldl_refStep]
  simp

/-- C7 counterexample: a reference file beginning with a UTF-8 BOM does not
yield the same reference set as the file without the BOM: the address column
is no longer recognized and the set is empty. -/
theorem claim7_cx :
    loadReferenceSetFile ⟨["HolderAddress"], [["0xA"]]⟩ = ["0xa"]
  ∧ loadReferenceSetFile (addBOM ⟨["HolderAddress"], [["0xA"]]⟩) = []
  ∧ (["0xa"] : List String) ≠ ([] : List String) := by decide

/-- C7 (amended): the reference reader does not strip a byte-order mark: a
BOM-prefixed reference file whose first header cell is the (only) address
column yields the empty reference set; the leaderboard reader, opened in
utf-8-sig mode, strips the mark, so a BOM-prefixed leaderboard parses
identically to one without. -/
theorem claim7_amended :
    (∀ f : CsvFile, f.header.head? = some "HolderAddress" →
        "HolderAddress" ∉ f.header.tail → loadReferenceSetFile (addBOM f) = [])
  ∧ (∀ f : CsvFile, f.header ≠ [] → stripBOM (addBOM f) = f) := by
  constructor
  · rintro ⟨hd, recs⟩ h1 h2
    cases hd with
    | nil => cases h1
    | cons c t =>
      simp only [List.head?_cons, Option.some.injEq] at h1
      subst h1
      simp only [List.tail_cons] at h2
      unfold loadReferenceSetFile addBOM dictRows loadReferenceSet
      apply foldl_refStep_of_no_key
      intro r hr
      simp only [List.mem_map] at hr
      obtain ⟨cells, -, rfl⟩ := hr
      apply lookup_zip_of_not_mem
      intro hmem
      rcases List.mem_cons.mp hmem with heq | hmem2
      · exact absurd heq (by decide)
      · exact h2 hmem2
  · rintro ⟨hd, recs⟩ h
    cases hd with
    | nil => exact absurd rfl h
    | cons c t =>
      obtain ⟨cdata⟩ := c
      rfl

/-- Witness for C7 (amended) at concrete files. -/
theorem claim7_amended_witness :
    loadReferenceSetFile (addBOM ⟨["HolderAddress", "Extra"], [["0xA", "z"]]⟩) = []
  ∧ stripBOM (addBOM ⟨["Address", "Quantity"], [["0xA", "5"]]⟩)
      = ⟨["Address", "Quantity"], [["0xA", "5"]]⟩ :=
  ⟨claim7_amended.1 ⟨["HolderAddress", "Extra"], [["0xA", "z"]]⟩ (by decide) (by decide),
   claim7_amended.2 ⟨["Address", "Quantity"], [["0xA", "5"]]⟩ (by decide)⟩

/-- C8 counterexample: the written header row is Address,Airdrop_Amount, not
Address,Reward_Amount as the claim states. -/
theorem claim8_cx :
    mainBase ⟨["HolderAddress"], []⟩ ⟨["Address", "Quantity"], []⟩
      = .ok [["Address", "Airdrop_Amount"]]
  ∧ (["Address", "Airdrop_Amount"] : List String) ≠ ["Address", "Reward_Amount"] := by
  decide

/-- C8 (amended): the output file is the header row Address,Airdrop_Amount
followed by exactly one row per matched record, in the order produced by the
matching loop; and whenever the pipeline succeeds the written file is exactly
this table for the computed matches. -/
theorem claim8_amended :
    (∀ ms : List MatchedRecord,
        (writeOutput ms).head? = some ["Address", "Airdrop_Amount"]
      ∧ (writeOutput ms).length = ms.length + 1
      ∧ ∀ i (h1 : i < ms.length) (h2 : i < (writeOutput ms).tail.length),
          (writeOutput ms).tail.get ⟨i, h2⟩
            = [(ms.get ⟨i, h1⟩).address, toString (ms.get ⟨i, h1⟩).airdrop_amount])
  ∧ (∀ (rf lf : CsvFile) (ms : List MatchedRecord),
        computeMatchesFileBase (loadReferenceSetFile rf) lf = .ok ms →
        mainBase rf lf = .ok (writeOutput ms)) := by
  constructor
  · intro ms
    refine ⟨rfl, by simp [writeOutput], ?_⟩
    intro i h1 h2
    show (ms.map (fun m => [m.address, toString m.airdrop_amount])).get ⟨i, _⟩ = _
    simp only [List.get_eq_getElem, List.getElem_map]
  · intro rf lf ms h
    simp only [mainBase, h]

/-- Witness for C8 (amended) at a concrete record list and a concrete run. -/
theorem claim8_amended_witness :
    (writeOutput [{ address := "0xA", airdrop_amount := 1 }]).head?
      = some ["Address", "Airdrop_Amount"]
  ∧ (writeOutput [{ address := "0xA", airdrop_amount := 1 }]).tail.get ⟨0, by decide⟩
      = ["0xA", toString (1 : ℚ)]
  ∧ mainBase ⟨["HolderAddress"], []⟩ ⟨["Address", "Quantity"], []⟩ = .ok (writeOutput []) :=
  ⟨(claim8_amended.1 [{ address := "0xA", airdrop_amount := 1 }]).1,
   (claim8_amended.1 [{ address := "0xA", airdrop_amount := 1 }]).2.2 0 (by decide) (by decide),
   claim8_amended.2 ⟨["HolderAddress"], []⟩ ⟨["Address", "Quantity"], []⟩ [] (by decide)⟩

/-- C9: the base and edu scripts compute the same function modulo column
names: on any leaderboard whose columns avoid the edu names, renaming
Address to HolderAddress and Quantity to Balance makes the edu script
produce exactly the same output record sequences as the base script. -/
theorem claim9_base_edu_equiv (refs : List String) (rows : List Row)
    (h : ∀ r ∈ rows, ∀ kv ∈ r, kv.1 ≠ "HolderAddress" ∧ kv.1 ≠ "Balance")
    (ms : List MatchedRecord) :
    computeMatchesEdu refs (rows.map renameRow) = .ok ms
      ↔ computeMatchesBase refs rows = .ok ms :=
  computeMatches_rename_ok refs rows h ms

/-- Witness for C9 at a concrete matched leaderboard. -/
theorem claim9_base_edu_equiv_witness :
    computeMatchesEdu ["0xa"] ([[("Address", "0xA"), ("Quantity", "2")]].map renameRow)
        = .ok [{ address := "0xA",
                 airdrop_amount := pyRound3 (Numeral.val ⟨false, 2, 0, 0, 0⟩ * (1 / 10)) }]
      ↔ computeMatchesBase ["0xa"] [[("Address", "0xA"), ("Quantity", "2")]]
        = .ok [{ address := "0xA",
                 airdrop_amount := pyRound3 (Numeral.val ⟨false, 2, 0, 0, 0⟩ * (1 / 10)) }] :=
  claim9_base_edu_equiv ["0xa"] [[("Address", "0xA"), ("Quantity", "2")]] (by decide) _

/-- C10: for a matched leaderboard row, processing raises an error exactly
when the value cell is not a decimal numeral; no range check is applied: the
numeral -5 parses to the negative rational -5, the row is accepted, and the
output reward is the negative amount -1/2. -/
theorem claim10_value_parsing :
    (∀ (refs : List String) (a v : String), pyLower a ∈ refs →
        ((∃ ms, computeMatchesBase refs [[("Address", a), ("Quantity", v)]] = .ok ms)
          ↔ ∃ q, pyFloat? v = some q))
  ∧ pyFloat? "-5" = some (-5)
  ∧ pyFloat? "N/A" = none
  ∧ computeMatchesBase ["0xa"] [[("Address", "0xA"), ("Quantity", "-5")]]
      = .ok [{ address := "0xA", airdrop_amount := -(1 / 2) }]
  ∧ (-(1 / 2) : ℚ) < 0 := by
  refine ⟨?_, ?_, by decide, ?_, by norm_num⟩
  · intro refs a v hm
    simp only [computeMatchesBase, processRowBase,
      show List.lookup "Address" [("Address", a), ("Quantity", v)] = some a from rfl,
      show List.lookup "Quantity" [("Address", a), ("Quantity", v)] = some v from rfl,
      if_pos hm]
    cases hF : pyFloat? v with
    | none => simp [hF]
    | some q => simp [hF]
  · have h : parseNumeral? "-5" = some ⟨true, 5, 0, 0, 0⟩ := by decide
    unfold pyFloat?
    rw [h]
    norm_num [Numeral.val, Option.map]
  · have hrec : computeMatchesBase ["0xa"] [[("Address", "0xA"), ("Quantity", "-5")]]
        = .ok [{ address := "0xA",
                 airdrop_amount := pyRound3 (Numeral.val ⟨true, 5, 0, 0, 0⟩ * (1 / 10)) }] := rfl
    rw [hrec]
    have h2 : pyRound3 (Numeral.val ⟨true, 5, 0, 0, 0⟩ * (1 / 10)) = -(1 / 2) := by
      rw [pyRound3_eq_of_mul_eq _ (-500) (by norm_num [Numeral.val])]
      norm_num
    rw [h2]

/-- Witness for C10, applying the no-range-check equivalence at a concrete
matched row with a parseable value. -/
theorem claim10_value_parsing_witness :
    (∃ ms, computeMatchesBase ["0xa"] [[("Address", "0xA"), ("Quantity", "100")]] = .ok ms)
      ↔ ∃ q, pyFloat? "100" = some q :=
  claim10_value_parsing.1 ["0xa"] "0xA" "100" (by decide)

end AirdropFilter
